import Mathlib

/-!
Shallow embedding of the cloud-storage registry/override component
(`cloud_storage_client_api/di.py`), the capability contract
(`cloud_storage_client_api/client.py`) and the GCP backend
(`gcp_client_impl/client.py`).
-/

namespace CloudStorage

/-- A produced client instance.  The registry never inspects the instances a
factory returns, so they are modelled as opaque values (naturals). -/
abbrev Client := Nat

/-- `GetClient`: a zero-argument factory producing a client
(`Callable[[], CloudStorageClient]`). -/
abbrev GetClient := Unit → Client

/-! ### Python `dict[str, α]` as an association list with unique keys.

`dictSet` mirrors `d[k] = v` (replace in place, else append);
`dictPop` mirrors `d.pop(k, None)`; `dictGet` mirrors `d.get(k)`. -/

def dictGet {α : Type} : List (String × α) → String → Option α
  | [], _ => none
  | (k', v) :: rest, k => if k' = k then some v else dictGet rest k

def dictSet {α : Type} : List (String × α) → String → α → List (String × α)
  | [], k, v => [(k, v)]
  | (k', v') :: rest, k, v =>
      if k' = k then (k, v) :: rest else (k', v') :: dictSet rest k v

def dictPop {α : Type} : List (String × α) → String → List (String × α)
  | [], _ => []
  | (k', v') :: rest, k => if k' = k then rest else (k', v') :: dictPop rest k

theorem dictGet_dictSet_self {α : Type} (d : List (String × α)) (k : String) (v : α) :
    dictGet (dictSet d k v) k = some v := by
  induction d with
  | nil => simp [dictSet, dictGet]
  | cons hd tl ih =>
      obtain ⟨k', v'⟩ := hd
      by_cases h : k' = k <;> simp [dictSet, dictGet, h, ih]

theorem dictGet_dictSet_other {α : Type} (d : List (String × α)) (k k' : String) (v : α)
    (h : k' ≠ k) : dictGet (dictSet d k v) k' = dictGet d k' := by
  induction d with
  | nil => simp [dictSet, dictGet, Ne.symm h]
  | cons hd tl ih =>
      obtain ⟨k₀, v₀⟩ := hd
      by_cases h₀ : k₀ = k
      · subst h₀
        simp [dictSet, dictGet, Ne.symm h]
      · simp [dictSet, dictGet, h₀, ih]

theorem dictGet_dictPop_self {α : Type} (d : List (String × α)) (k : String)
    (hu : (d.map Prod.fst).Nodup) : dictGet (dictPop d k) k = none := by
  induction d with
  | nil => simp [dictPop, dictGet]
  | cons hd tl ih =>
      obtain ⟨k', v'⟩ := hd
      simp only [List.map_cons, List.nodup_cons] at hu
      by_cases h : k' = k
      · subst h
        simp only [dictPop, if_pos rfl]
        -- k' does not occur among tl's keys, so lookup misses
        clear ih
        induction tl with
        | nil => simp [dictGet]
        | cons hd₂ tl₂ ih₂ =>
            obtain ⟨k₂, v₂⟩ := hd₂
            simp only [List.map_cons, List.mem_cons, List.nodup_cons] at hu
            have hne : k₂ ≠ k' := fun hh => hu.1 (Or.inl hh.symm)
            simp only [dictGet, if_neg hne]
            exact ih₂ ⟨fun hm => hu.1 (Or.inr hm), hu.2.2⟩
      · simp only [dictPop, if_neg h, dictGet, if_neg h]
        exact ih hu.2

theorem dictGet_dictPop_other {α : Type} (d : List (String × α)) (k k' : String)
    (h : k' ≠ k) : dictGet (dictPop d k) k' = dictGet d k' := by
  induction d with
  | nil => simp [dictPop, dictGet]
  | cons hd tl ih =>
      obtain ⟨k₀, v₀⟩ := hd
      by_cases h₀ : k₀ = k
      · subst h₀
        simp [dictPop, dictGet, Ne.symm h]
      · simp [dictPop, dictGet, h₀, ih]

theorem dictPop_absent {α : Type} (d : List (String × α)) (k : String)
    (h : dictGet d k = none) : dictPop d k = d := by
  induction d with
  | nil => rfl
  | cons hd tl ih =>
      obtain ⟨k', v'⟩ := hd
      by_cases hk : k' = k
      · simp [dictGet, hk] at h
      · simp only [dictGet, if_neg hk] at h
        simp [dictPop, hk, ih h]

/-! ### The DI module state (`di.py`).

`_registry` is the process-wide global table; `_overrides` is a
`ContextVar` holding, per execution context, either `None` (default) or a
context-local override dict.  A `ContextVar` is modelled as a map from a
context identifier to its current value in that context. -/

/-- An execution context identifier (thread / task / coroutine context). -/
abbrev Ctx := Nat

structure DIState where
  registry : List (String × GetClient)
  overrides : Ctx → Option (List (String × GetClient))

/-- The fresh process state: empty `_registry`, `_overrides` unset everywhere
(its `ContextVar` default is `None`). -/
def DIState.initial : DIState := ⟨[], fun _ => none⟩

/-- `_overrides.set(v)` in context `c` (only that context's slot changes). -/
def setVar (s : DIState) (c : Ctx) (v : Option (List (String × GetClient))) : DIState :=
  { s with overrides := fun c' => if c' = c then v else s.overrides c' }

/-- `register_get_client(fn, name)`: installs/replaces the factory under the
registry lock. -/
def register_get_client (s : DIState) (fn : GetClient) (name : String) : DIState :=
  { s with registry := dictSet s.registry name fn }

/-- `unregister_get_client(name)`: `_registry.pop(name, None)`. -/
def unregister_get_client (s : DIState) (name : String) : DIState :=
  { s with registry := dictPop s.registry name }

/-- The `RuntimeError` raised by `get_client` when no factory is bound:
it carries the requested name, the sorted list of registered names, and the
formatted message. -/
structure Unconfigured where
  requested : String
  known : List String
  message : String
  deriving DecidableEq, Repr

/-- Lexicographic comparison of character sequences by code point — the order
Python's `sorted` uses on `str`. -/
def charListLe : List Char → List Char → Bool
  | [], _ => true
  | _ :: _, [] => false
  | c :: cs, d :: ds =>
      if c.val < d.val then true
      else if d.val < c.val then false
      else charListLe cs ds

def strLe (a b : String) : Bool := charListLe a.data b.data

def sortInsert (x : String) : List String → List String
  | [] => [x]
  | y :: ys => if strLe x y then x :: y :: ys else y :: sortInsert x ys

/-- A stable insertion sort in Python's string order, modelling `sorted`. -/
def sortStrings : List String → List String
  | [] => []
  | x :: xs => sortInsert x (sortStrings xs)

/-- `sorted(_registry.keys())`. -/
def sortedKeys (registry : List (String × GetClient)) : List String :=
  sortStrings (registry.map Prod.fst)

/-- `", ".join(sorted(_registry.keys())) or "(none)"` (an empty join is falsy). -/
def availableProviders (registry : List (String × GetClient)) : String :=
  let joined := String.intercalate ", " (sortedKeys registry)
  if joined = "" then "(none)" else joined

def unconfiguredMessage (name : String) (registry : List (String × GetClient)) : String :=
  "No CloudStorageClient implementation injected for provider '" ++ name ++
    "'. Available providers: " ++ availableProviders registry

/-- `get_client(name)` run in execution context `c`: context-local overrides
first (the dict must be truthy — non-`None` and non-empty — and bind `name`),
then the global registry read under the lock, the factory invoked outside it;
otherwise raise. -/
def get_client (s : DIState) (c : Ctx) (name : String) : Except Unconfigured Client :=
  match s.overrides c with
  | some overridesDict =>
      -- `if overrides_dict and name in overrides_dict`
      match overridesDict, dictGet overridesDict name with
      | _ :: _, some fn => Except.ok (fn ())
      | _, _ =>
          match dictGet s.registry name with
          | some fnCandidate => Except.ok (fnCandidate ())
          | none =>
              Except.error ⟨name, sortedKeys s.registry, unconfiguredMessage name s.registry⟩
  | none =>
      match dictGet s.registry name with
      | some fnCandidate => Except.ok (fnCandidate ())
      | none =>
          Except.error ⟨name, sortedKeys s.registry, unconfiguredMessage name s.registry⟩

/-- The body of `override_get_client` before `yield`: read the current
override dict (`or {}`), set the var to a copy extended with `name ↦ fn`. -/
def overrideEnter (s : DIState) (c : Ctx) (fn : GetClient) (name : String) : DIState :=
  let current := (s.overrides c).getD []
  setVar s c (some (dictSet current name fn))

/-- An exception propagating out of the `with` body (opaque). -/
abbrev PyExc := String

/-- `override_get_client(fn, name)` as a whole, run in context `c` with an
arbitrary body `scope` (a state transformer that may also raise): set the
extended table, run the body, and in `finally` reset the var to the token's
saved value; a body exception propagates after the reset. -/
def override_get_client (s : DIState) (c : Ctx) (fn : GetClient) (name : String)
    (scope : DIState → DIState × Option PyExc) : DIState × Option PyExc :=
  let token := s.overrides c
  let (s2, exc) := scope (overrideEnter s c fn name)
  (setVar s2 c token, exc)

/-! ### Helper lemmas about the DI state. -/

theorem setVar_overrides_self (s : DIState) (c : Ctx) (v : Option (List (String × GetClient))) :
    (setVar s c v).overrides c = v := by
  simp [setVar]

theorem setVar_overrides_other (s : DIState) (c c' : Ctx)
    (v : Option (List (String × GetClient))) (h : c' ≠ c) :
    (setVar s c v).overrides c' = s.overrides c' := by
  simp [setVar, h]

theorem setVar_registry (s : DIState) (c : Ctx) (v : Option (List (String × GetClient))) :
    (setVar s c v).registry = s.registry := rfl

/-- The current execution context's override table binds `name`. -/
def overrideBinds (s : DIState) (c : Ctx) (name : String) : Prop :=
  ∃ od f, s.overrides c = some od ∧ dictGet od name = some f

theorem get_client_override_hit (s : DIState) (c : Ctx) (od : List (String × GetClient))
    (f : GetClient) (n : String) (h1 : s.overrides c = some od) (h2 : dictGet od n = some f) :
    get_client s c n = Except.ok (f ()) := by
  cases od with
  | nil => simp [dictGet] at h2
  | cons hd tl => simp [get_client, h1, h2]

theorem get_client_no_override (s : DIState) (c : Ctx) (n : String)
    (h : ¬ overrideBinds s c n) :
    get_client s c n =
      match dictGet s.registry n with
      | some f => Except.ok (f ())
      | none => Except.error ⟨n, sortedKeys s.registry, unconfiguredMessage n s.registry⟩ := by
  unfold get_client
  cases hov : s.overrides c with
  | none => rfl
  | some od =>
      cases hd : dictGet od n with
      | some f => exact absurd ⟨od, f, hov, hd⟩ h
      | none => cases od <;> simp [hd]

theorem override_get_client_fst (s : DIState) (c : Ctx) (fn : GetClient) (name : String)
    (scope : DIState → DIState × Option PyExc) :
    (override_get_client s c fn name scope).1
      = setVar (scope (overrideEnter s c fn name)).1 c (s.overrides c) := by
  unfold override_get_client
  cases scope (overrideEnter s c fn name)
  rfl

theorem overrideEnter_overrides_self (s : DIState) (c : Ctx) (fn : GetClient) (name : String) :
    (overrideEnter s c fn name).overrides c
      = some (dictSet ((s.overrides c).getD []) name fn) := by
  simp [overrideEnter, setVar]

theorem get_client_congr (s₁ s₂ : DIState) (c : Ctx) (n : String)
    (ho : s₁.overrides c = s₂.overrides c) (hr : s₁.registry = s₂.registry) :
    get_client s₁ c n = get_client s₂ c n := by
  unfold get_client
  rw [ho, hr]

/-! ### Sequences of register/unregister operations on one name. -/

inductive RegOp where
  | reg (fn : GetClient)
  | unreg

def applyOp (s : DIState) (n : String) : RegOp → DIState
  | RegOp.reg fn => register_get_client s fn n
  | RegOp.unreg => unregister_get_client s n

def applyOps (s : DIState) (n : String) (ops : List RegOp) : DIState :=
  ops.foldl (fun st op => applyOp st n op) s

/-- The factory installed by the most recent operation of the sequence, if the
most recent operation was a `register`. -/
def lastReg (ops : List RegOp) : Option GetClient :=
  ops.foldl (fun acc op => match op with | RegOp.reg f => some f | RegOp.unreg => none) none

theorem dictSet_cons_eq {α : Type} (k : String) (v' v : α) (tl : List (String × α)) :
    dictSet ((k, v') :: tl) k v = (k, v) :: tl := by
  simp [dictSet]

theorem dictPop_cons_eq {α : Type} (k : String) (v' : α) (tl : List (String × α)) :
    dictPop ((k, v') :: tl) k = tl := by
  simp [dictPop]

theorem mem_keys_dictSet {α : Type} (d : List (String × α)) (k k₀ : String) (v : α)
    (h : k₀ ∈ (dictSet d k v).map Prod.fst) : k₀ ∈ d.map Prod.fst ∨ k₀ = k := by
  induction d with
  | nil =>
      simp only [dictSet, List.map_cons, List.map_nil, List.mem_cons,
        List.not_mem_nil, or_false] at h
      exact Or.inr h
  | cons hd tl ih =>
      obtain ⟨k₂, v₂⟩ := hd
      by_cases h₂ : k₂ = k
      · subst h₂
        rw [dictSet_cons_eq] at h
        simp only [List.map_cons, List.mem_cons] at h ⊢
        tauto
      · simp only [dictSet, if_neg h₂, List.map_cons, List.mem_cons] at h ⊢
        rcases h with h | h
        · exact Or.inl (Or.inl h)
        · rcases ih h with h | h
          · exact Or.inl (Or.inr h)
          · exact Or.inr h

theorem mem_keys_dictPop {α : Type} (d : List (String × α)) (k k₀ : String)
    (h : k₀ ∈ (dictPop d k).map Prod.fst) : k₀ ∈ d.map Prod.fst := by
  induction d with
  | nil => simpa [dictPop] using h
  | cons hd tl ih =>
      obtain ⟨k₂, v₂⟩ := hd
      by_cases h₂ : k₂ = k
      · subst h₂
        rw [dictPop_cons_eq] at h
        simp only [List.map_cons, List.mem_cons]
        exact Or.inr h
      · simp only [dictPop, if_neg h₂, List.map_cons, List.mem_cons] at h ⊢
        tauto

theorem nodup_keys_dictSet {α : Type} (d : List (String × α)) (k : String) (v : α)
    (h : (d.map Prod.fst).Nodup) : ((dictSet d k v).map Prod.fst).Nodup := by
  induction d with
  | nil => simp [dictSet]
  | cons hd tl ih =>
      obtain ⟨k₀, v₀⟩ := hd
      simp only [List.map_cons, List.nodup_cons] at h
      by_cases hk : k₀ = k
      · subst hk
        simpa [dictSet] using h
      · simp only [dictSet, if_neg hk, List.map_cons, List.nodup_cons]
        refine ⟨?_, ih h.2⟩
        intro hmem
        rcases mem_keys_dictSet tl k k₀ v hmem with hm | hm
        · exact h.1 hm
        · exact hk hm

theorem nodup_keys_dictPop {α : Type} (d : List (String × α)) (k : String)
    (h : (d.map Prod.fst).Nodup) : ((dictPop d k).map Prod.fst).Nodup := by
  induction d with
  | nil => simp [dictPop]
  | cons hd tl ih =>
      obtain ⟨k₀, v₀⟩ := hd
      simp only [List.map_cons, List.nodup_cons] at h
      by_cases hk : k₀ = k
      · subst hk
        simpa [dictPop] using h.2
      · simp only [dictPop, if_neg hk, List.map_cons, List.nodup_cons]
        exact ⟨fun hmem => h.1 (mem_keys_dictPop tl k k₀ hmem), ih h.2⟩

theorem applyOps_overrides (s : DIState) (n : String) (ops : List RegOp) :
    (applyOps s n ops).overrides = s.overrides := by
  induction ops generalizing s with
  | nil => rfl
  | cons op rest ih =>
      cases op with
      | reg fn => simpa [applyOps, applyOp, register_get_client] using ih _
      | unreg => simpa [applyOps, applyOp, unregister_get_client] using ih _

theorem applyOps_nodup (s : DIState) (n : String) (ops : List RegOp)
    (h : (s.registry.map Prod.fst).Nodup) :
    ((applyOps s n ops).registry.map Prod.fst).Nodup := by
  induction ops generalizing s with
  | nil => exact h
  | cons op rest ih =>
      cases op with
      | reg fn =>
          exact ih _ (by simpa [applyOp, register_get_client] using nodup_keys_dictSet s.registry n fn h)
      | unreg =>
          exact ih _ (by simpa [applyOp, unregister_get_client] using nodup_keys_dictPop s.registry n h)

theorem applyOps_dictGet (s : DIState) (n : String) (ops : List RegOp)
    (h : (s.registry.map Prod.fst).Nodup) :
    dictGet (applyOps s n ops).registry n
      = ops.foldl (fun acc op => match op with | RegOp.reg f => some f | RegOp.unreg => none)
          (dictGet s.registry n) := by
  induction ops generalizing s with
  | nil => rfl
  | cons op rest ih =>
      cases op with
      | reg fn =>
          have h' := nodup_keys_dictSet s.registry n fn h
          have := ih (register_get_client s fn n) (by simpa [register_get_client] using h')
          simpa [applyOps, applyOp, register_get_client,
            dictGet_dictSet_self s.registry n fn] using this
      | unreg =>
          have h' := nodup_keys_dictPop s.registry n h
          have := ih (unregister_get_client s n) (by simpa [unregister_get_client] using h')
          simpa [applyOps, applyOp, unregister_get_client,
            dictGet_dictPop_self s.registry n h] using this

theorem applyOps_registry_only (s s' : DIState) (n : String) (ops : List RegOp)
    (h : s.registry = s'.registry) :
    (applyOps s n ops).registry = (applyOps s' n ops).registry := by
  induction ops generalizing s s' with
  | nil => exact h
  | cons op rest ih =>
      cases op with
      | reg fn => exact ih _ _ (by simp [applyOp, register_get_client, h])
      | unreg => exact ih _ _ (by simp [applyOp, unregister_get_client, h])

theorem overrides_none_not_binds (s : DIState) (c : Ctx) (n : String)
    (h : s.overrides c = none) : ¬ overrideBinds s c n := by
  rintro ⟨od, f, hod, _⟩
  rw [h] at hod
  exact Option.noConfusion hod

/-- Concrete factories and a concrete state used by the witnesses below. -/
def fSeven : GetClient := fun _ => 7
def fThree : GetClient := fun _ => 3
def fNine : GetClient := fun _ => 9

def sWitness : DIState :=
  { registry := [("default", fThree)],
    overrides := fun c => if c = 0 then some [("default", fSeven)] else none }

/-- C1: `override_get_client(fn, name, scope)` reinstates the exact override
table that was active before entry on every exit path from the scope body
(which may finish normally or raise), so a `get_client(name)` issued after the
scope exits behaves exactly as the pre-entry override state dictates over the
then-current registry: with no pre-entry override it returns the global
binding's result, or the `Unconfigured` failure naming `name` if nothing is
registered. -/
theorem override_scope_restores_prior_table (s : DIState) (c : Ctx) (fn : GetClient)
    (name : String) (scope : DIState → DIState × Option PyExc) (s' : DIState)
    (exc : Option PyExc) (hrun : override_get_client s c fn name scope = (s', exc)) :
    s'.overrides c = s.overrides c ∧
    (∀ m, get_client s' c m = get_client ⟨s'.registry, s.overrides⟩ c m) ∧
    (s.overrides c = none → dictGet s'.registry name = none →
      get_client s' c name
        = Except.error ⟨name, sortedKeys s'.registry, unconfiguredMessage name s'.registry⟩) ∧
    (s.overrides c = none → ∀ g, dictGet s'.registry name = some g →
      get_client s' c name = Except.ok (g ())) := by
  have hs' : s' = setVar (scope (overrideEnter s c fn name)).1 c (s.overrides c) := by
    have := override_get_client_fst s c fn name scope
    rw [hrun] at this
    exact this
  have hov : s'.overrides c = s.overrides c := by
    rw [hs']; exact setVar_overrides_self _ _ _
  refine ⟨hov, ?_, ?_, ?_⟩
  · intro m
    exact get_client_congr _ _ _ _ hov rfl
  · intro hnone hreg
    rw [get_client_no_override s' c name
      (overrides_none_not_binds s' c name (hov.trans hnone)), hreg]
  · intro hnone g hreg
    rw [get_client_no_override s' c name
      (overrides_none_not_binds s' c name (hov.trans hnone)), hreg]

theorem override_scope_restores_prior_table_witness :
    DIState.initial.overrides 0 = none ∧
    get_client (override_get_client DIState.initial 0 fSeven "default"
        (fun st => (st, some "boom"))).1 0 "default"
      = Except.error ⟨"default", [], unconfiguredMessage "default" []⟩ := by
  refine ⟨rfl, ?_⟩
  have h := override_scope_restores_prior_table DIState.initial 0 fSeven "default"
    (fun st => (st, some "boom"))
    (override_get_client DIState.initial 0 fSeven "default" (fun st => (st, some "boom"))).1
    (override_get_client DIState.initial 0 fSeven "default" (fun st => (st, some "boom"))).2
    Prod.mk.eta.symm
  exact h.2.2.1 rfl rfl

/-- C2: `get_client(name)` resolves in exactly this order: a binding in the
current context's override table wins and its factory's result is returned;
otherwise a binding in the global registry wins; otherwise the call fails with
the `Unconfigured` error carrying the requested name and the sorted list of
registered provider names, which is empty (rendered `"(none)"`) when the
registry is empty. -/
theorem resolve_resolution_order (s : DIState) (c : Ctx) (n : String) :
    (∀ od f, s.overrides c = some od → dictGet od n = some f →
        get_client s c n = Except.ok (f ())) ∧
    (¬ overrideBinds s c n → ∀ f, dictGet s.registry n = some f →
        get_client s c n = Except.ok (f ())) ∧
    (¬ overrideBinds s c n → dictGet s.registry n = none →
        get_client s c n
          = Except.error ⟨n, sortedKeys s.registry, unconfiguredMessage n s.registry⟩) ∧
    (s.registry = [] →
        sortedKeys s.registry = [] ∧ availableProviders s.registry = "(none)") := by
  refine ⟨?_, ?_, ?_, ?_⟩
  · intro od f hod hf
    exact get_client_override_hit s c od f n hod hf
  · intro hnb f hf
    rw [get_client_no_override s c n hnb, hf]
  · intro hnb hf
    rw [get_client_no_override s c n hnb, hf]
  · intro hempty
    rw [hempty]
    exact ⟨rfl, rfl⟩

theorem resolve_resolution_order_witness :
    get_client sWitness 0 "default" = Except.ok 7 ∧
    get_client sWitness 1 "default" = Except.ok 3 ∧
    get_client DIState.initial 1 "default"
      = Except.error ⟨"default", [],
          "No CloudStorageClient implementation injected for provider 'default'. Available providers: (none)"⟩ := by
  have h0 := resolve_resolution_order sWitness 0 "default"
  have h1 := resolve_resolution_order sWitness 1 "default"
  have h2 := resolve_resolution_order DIState.initial 1 "default"
  refine ⟨h0.1 [("default", fSeven)] fSeven rfl rfl, ?_, ?_⟩
  · exact h1.2.1 (overrides_none_not_binds sWitness 1 "default" rfl) fThree rfl
  · exact h2.2.2.1 (overrides_none_not_binds DIState.initial 1 "default" rfl) rfl

/-- C3: an override installed by one execution context is invisible to any
other context: installing `fn` under `n` in context `a` leaves context `b`'s
override slot and the registry untouched, so every `get_client` issued from
`b` returns exactly what it would have returned had the override never been
installed. -/
theorem override_context_isolation (s : DIState) (a b : Ctx) (hab : a ≠ b)
    (fn : GetClient) (n : String) :
    (overrideEnter s a fn n).overrides b = s.overrides b ∧
    (overrideEnter s a fn n).registry = s.registry ∧
    (∀ m, get_client (overrideEnter s a fn n) b m = get_client s b m) := by
  have hov : (overrideEnter s a fn n).overrides b = s.overrides b :=
    setVar_overrides_other s a b _ (Ne.symm hab)
  exact ⟨hov, rfl, fun m => get_client_congr _ _ _ _ hov rfl⟩

theorem override_context_isolation_witness :
    (0 : Ctx) ≠ 1 ∧
    get_client (overrideEnter sWitness 0 fNine "default") 1 "default"
      = get_client sWitness 1 "default" := by
  have h := override_context_isolation sWitness 0 1 (by decide) fNine "default"
  exact ⟨by decide, h.2.2 "default"⟩

/-- C4: starting from a state whose registry has unique keys, no binding for
`n` and no override for `n` in the current context, after any finite sequence
of `register_get_client`/`unregister_get_client` calls on `n`, `get_client(n)`
succeeds exactly when the most recent operation was a register — returning the
most recently registered factory's result — and otherwise fails with an
`Unconfigured` error naming `n`; moreover unregistering an absent name leaves
the registry unchanged (a no-op, not an error). -/
theorem register_last_writer_wins (s : DIState) (c : Ctx) (n : String)
    (ops : List RegOp) (hnd : (s.registry.map Prod.fst).Nodup)
    (hfresh : dictGet s.registry n = none) (hov : ¬ overrideBinds s c n) :
    (∀ f, lastReg ops = some f →
        get_client (applyOps s n ops) c n = Except.ok (f ())) ∧
    (lastReg ops = none →
        get_client (applyOps s n ops) c n
          = Except.error ⟨n, sortedKeys (applyOps s n ops).registry,
              unconfiguredMessage n (applyOps s n ops).registry⟩) ∧
    (unregister_get_client s n).registry = s.registry := by
  have hget : dictGet (applyOps s n ops).registry n = lastReg ops := by
    rw [applyOps_dictGet s n ops hnd, hfresh]
    rfl
  have hov' : ¬ overrideBinds (applyOps s n ops) c n := by
    intro hb
    apply hov
    obtain ⟨od, f, hod, hf⟩ := hb
    rw [applyOps_overrides] at hod
    exact ⟨od, f, hod, hf⟩
  refine ⟨?_, ?_, ?_⟩
  · intro f hf
    rw [get_client_no_override _ c n hov', hget, hf]
  · intro hf
    rw [get_client_no_override _ c n hov', hget, hf]
  · exact dictPop_absent s.registry n hfresh

theorem register_last_writer_wins_witness :
    lastReg [RegOp.reg fSeven, RegOp.reg fThree, RegOp.unreg, RegOp.reg fNine]
      = some fNine ∧
    get_client (applyOps DIState.initial "default"
        [RegOp.reg fSeven, RegOp.reg fThree, RegOp.unreg, RegOp.reg fNine]) 0 "default"
      = Except.ok 9 := by
  have h := register_last_writer_wins DIState.initial 0 "default"
    [RegOp.reg fSeven, RegOp.reg fThree, RegOp.unreg, RegOp.reg fNine]
    (by simp [DIState.initial]) rfl
    (overrides_none_not_binds DIState.initial 0 "default" rfl)
  exact ⟨rfl, h.1 fNine rfl⟩

/-- C5: overrides nest — with an outer override `m ↦ f` active, installing an
inner override for a different name `n` leaves the binding for `m` visible
(`get_client(m)` still yields `f`'s result inside the inner scope), and
exiting the inner scope unwinds the context's table to exactly the outer
override's table, with the outer override for `m` still active. -/
theorem nested_override_unwinds (s : DIState) (c : Ctx) (m n : String) (hmn : m ≠ n)
    (f g : GetClient) (scope : DIState → DIState × Option PyExc) :
    get_client (overrideEnter (overrideEnter s c f m) c g n) c m = Except.ok (f ()) ∧
    (override_get_client (overrideEnter s c f m) c g n scope).1.overrides c
      = (overrideEnter s c f m).overrides c ∧
    get_client (override_get_client (overrideEnter s c f m) c g n scope).1 c m
      = Except.ok (f ()) := by
  have houter : (overrideEnter s c f m).overrides c
      = some (dictSet ((s.overrides c).getD []) m f) :=
    overrideEnter_overrides_self s c f m
  have hm : dictGet (dictSet ((s.overrides c).getD []) m f) m = some f :=
    dictGet_dictSet_self _ m f
  have hinner : (overrideEnter (overrideEnter s c f m) c g n).overrides c
      = some (dictSet (dictSet ((s.overrides c).getD []) m f) n g) := by
    rw [overrideEnter_overrides_self, houter]
    rfl
  have hrestored : (override_get_client (overrideEnter s c f m) c g n scope).1.overrides c
      = (overrideEnter s c f m).overrides c := by
    rw [override_get_client_fst]
    exact setVar_overrides_self _ _ _
  refine ⟨?_, hrestored, ?_⟩
  · exact get_client_override_hit _ c _ f m hinner
      (by rw [dictGet_dictSet_other _ n m g hmn]; exact hm)
  · exact get_client_override_hit _ c _ f m (hrestored.trans houter) hm

theorem nested_override_unwinds_witness :
    ("default" : String) ≠ "x" ∧
    get_client (overrideEnter (overrideEnter DIState.initial 0 fSeven "default") 0 fNine "x")
        0 "default" = Except.ok 7 ∧
    get_client (override_get_client (overrideEnter DIState.initial 0 fSeven "default")
        0 fNine "x" (fun st => (st, none))).1 0 "default" = Except.ok 7 := by
  have h := nested_override_unwinds DIState.initial 0 "default" "x" (by decide)
    fSeven fNine (fun st => (st, none))
  exact ⟨by decide, h.1, h.2.2⟩

/-- C10: the override mechanism and the global registry do not interfere —
installing an override touches no registry entry; while the override for `n`
is active, `get_client(n)` returns the override factory's result no matter
which `register`/`unregister` calls on `n` are interleaved; and after the
override scope exits, the registry is exactly what the interleaved
register/unregister calls alone would have produced. -/
theorem override_frame_on_registry (s : DIState) (c : Ctx) (fn : GetClient)
    (n : String) (ops : List RegOp) :
    (overrideEnter s c fn n).registry = s.registry ∧
    get_client (applyOps (overrideEnter s c fn n) n ops) c n = Except.ok (fn ()) ∧
    (override_get_client s c fn n (fun st => (applyOps st n ops, none))).1.registry
      = (applyOps s n ops).registry := by
  refine ⟨rfl, ?_, ?_⟩
  · have hov : (applyOps (overrideEnter s c fn n) n ops).overrides c
        = some (dictSet ((s.overrides c).getD []) n fn) := by
      rw [applyOps_overrides]
      exact overrideEnter_overrides_self s c fn n
    exact get_client_override_hit _ c _ fn n hov (dictGet_dictSet_self _ n fn)
  · rw [override_get_client_fst, setVar_registry]
    exact applyOps_registry_only _ _ n ops rfl

/-! ## The capability contract's value object (`cloud_storage_client_api/client.py`)

`ObjectInfo` is a frozen dataclass: `key` required, every other field
optional and defaulted.  Timestamps are modelled as abstract ticks,
`Mapping[str, str]` as an association list. -/

structure ObjectInfo where
  key : String
  size_bytes : Option Nat := none
  etag : Option String := none
  updated_at : Option Nat := none
  content_type : Option String := none
  metadata : Option (List (String × String)) := none
  deriving DecidableEq, Repr

/-- The server-side state of one stored GCS object, as a loaded blob exposes
it after `reload()` (the blob's `name` is the key it is stored under). -/
structure BlobRecord where
  data : List Nat
  size : Option Nat := none
  etag : Option String := none
  updated : Option Nat := none
  content_type : Option String := none
  metadata : Option (List (String × String)) := none
  deriving DecidableEq, Repr

/-- `GCPCloudStorageClient._blob_to_object_info`: field-for-field mapping;
`metadata=blob.metadata or {}` turns a falsy (absent or empty) mapping into
the empty dict. -/
def blob_to_object_info (name : String) (b : BlobRecord) : ObjectInfo :=
  { key := name,
    size_bytes := b.size,
    etag := b.etag,
    updated_at := b.updated,
    content_type := b.content_type,
    metadata := some (b.metadata.getD []) }

/-! ## Credential material parsing (`GCPCloudStorageClient._build_credentials`)

The helpers below model the standard-library collaborators the method calls:
`base64.b64decode(key, validate=True)` on a `str` argument, `bytes.decode("utf-8")`,
and `json.loads` (of which only acceptance matters here). -/

/-- Python truthiness of an optional string: `None` and `""` are falsy. -/
def truthyStr : Option String → Bool
  | none => false
  | some s => s ≠ ""

def isDigitChar (c : Char) : Bool := 48 ≤ c.toNat && c.toNat ≤ 57

def dropDigits : List Char → List Char
  | c :: cs => if isDigitChar c then dropDigits cs else c :: cs
  | [] => []

/-- JSON insignificant whitespace (`json.decoder.WHITESPACE`). -/
def isJsonWs (c : Char) : Bool := c = ' ' || c = '\t' || c = '\n' || c = '\r'

def skipWs : List Char → List Char
  | c :: cs => if isJsonWs c then skipWs cs else c :: cs
  | [] => []

/-- The body of a JSON string after the opening quote (`py_scanstring`,
strict mode): escapes `\" \\ \/ \b \f \n \r \t \uXXXX`, raw control
characters below `0x20` rejected; returns the input after the closing
quote. -/
def scanStringRest : List Char → Option (List Char)
  | [] => none
  | '"' :: rest => some rest
  | '\\' :: 'u' :: h1 :: h2 :: h3 :: h4 :: rest =>
      if (isDigitChar h1 || (97 ≤ h1.toNat && h1.toNat ≤ 102) || (65 ≤ h1.toNat && h1.toNat ≤ 70)) &&
         (isDigitChar h2 || (97 ≤ h2.toNat && h2.toNat ≤ 102) || (65 ≤ h2.toNat && h2.toNat ≤ 70)) &&
         (isDigitChar h3 || (97 ≤ h3.toNat && h3.toNat ≤ 102) || (65 ≤ h3.toNat && h3.toNat ≤ 70)) &&
         (isDigitChar h4 || (97 ≤ h4.toNat && h4.toNat ≤ 102) || (65 ≤ h4.toNat && h4.toNat ≤ 70)) then
        scanStringRest rest
      else none
  | '\\' :: e :: rest =>
      if e = '"' || e = '\\' || e = '/' || e = 'b' || e = 'f' || e = 'n' || e = 'r' || e = 't' then
        scanStringRest rest
      else none
  | c :: rest => if c.toNat < 0x20 then none else scanStringRest rest

/-- `NUMBER_RE`: `(-?(?:0|[1-9]\d*))(\.\d+)?([eE][-+]?\d+)?`; returns the
input after the longest match, or `none` when the mandatory integer part is
absent. -/
def scanIntPart : List Char → Option (List Char)
  | '0' :: rest => some rest
  | c :: rest => if isDigitChar c && c ≠ '0' then some (dropDigits rest) else none
  | [] => none

def scanFracPart : List Char → List Char
  | '.' :: d :: rest => if isDigitChar d then dropDigits (d :: rest) else '.' :: d :: rest
  | cs => cs

def scanExpPart : List Char → List Char
  | e :: '+' :: d :: rest =>
      if (e = 'e' || e = 'E') && isDigitChar d then dropDigits (d :: rest)
      else e :: '+' :: d :: rest
  | e :: '-' :: d :: rest =>
      if (e = 'e' || e = 'E') && isDigitChar d then dropDigits (d :: rest)
      else e :: '-' :: d :: rest
  | e :: d :: rest =>
      if (e = 'e' || e = 'E') && isDigitChar d then dropDigits (d :: rest)
      else e :: d :: rest
  | cs => cs

def scanNumber (cs : List Char) : Option (List Char) :=
  let afterSign := match cs with
    | '-' :: rest => scanIntPart rest
    | _ => scanIntPart cs
  match afterSign with
  | some rest => some (scanExpPart (scanFracPart rest))
  | none => none

mutual

/-- `scan_once`: one JSON value starting at the head of the input; returns
the remaining input on success.  `fuel` only bounds nesting (each recursive
call consumes at least one character first, so `length + 1` fuel suffices). -/
def scanValue : Nat → List Char → Option (List Char)
  | 0, _ => none
  | Nat.succ fuel, cs =>
      match cs with
      | '"' :: rest => scanStringRest rest
      | '{' :: rest => scanObjectBody fuel rest
      | '[' :: rest => scanArrayBody fuel rest
      | 'n' :: 'u' :: 'l' :: 'l' :: rest => some rest
      | 't' :: 'r' :: 'u' :: 'e' :: rest => some rest
      | 'f' :: 'a' :: 'l' :: 's' :: 'e' :: rest => some rest
      | 'N' :: 'a' :: 'N' :: rest => some rest
      | 'I' :: 'n' :: 'f' :: 'i' :: 'n' :: 'i' :: 't' :: 'y' :: rest => some rest
      | _ =>
          match scanNumber cs with
          | some rest => some rest
          | none =>
              match cs with
              | '-' :: 'I' :: 'n' :: 'f' :: 'i' :: 'n' :: 'i' :: 't' :: 'y' :: rest => some rest
              | _ => none

/-- Object members after the opening brace. -/
def scanObjectBody : Nat → List Char → Option (List Char)
  | 0, _ => none
  | Nat.succ fuel, cs =>
      match skipWs cs with
      | '}' :: rest => some rest
      | '"' :: rest =>
          match scanStringRest rest with
          | none => none
          | some afterKey =>
              match skipWs afterKey with
              | ':' :: afterColon =>
                  match scanValue fuel (skipWs afterColon) with
                  | none => none
                  | some afterVal => scanObjectTail fuel afterVal
              | _ => none
      | _ => none

/-- After one object member: `,` and another member, or the closing brace. -/
def scanObjectTail : Nat → List Char → Option (List Char)
  | 0, _ => none
  | Nat.succ fuel, cs =>
      match skipWs cs with
      | '}' :: rest => some rest
      | ',' :: rest =>
          match skipWs rest with
          | '"' :: rest2 =>
              match scanStringRest rest2 with
              | none => none
              | some afterKey =>
                  match skipWs afterKey with
                  | ':' :: afterColon =>
                      match scanValue fuel (skipWs afterColon) with
                      | none => none
                      | some afterVal => scanObjectTail fuel afterVal
                  | _ => none
          | _ => none
      | _ => none

/-- Array elements after the opening bracket. -/
def scanArrayBody : Nat → List Char → Option (List Char)
  | 0, _ => none
  | Nat.succ fuel, cs =>
      match skipWs cs with
      | ']' :: rest => some rest
      | _ =>
          match scanValue fuel (skipWs cs) with
          | none => none
          | some afterVal => scanArrayTail fuel afterVal

/-- After one array element: `,` and another element, or the closing bracket. -/
def scanArrayTail : Nat → List Char → Option (List Char)
  | 0, _ => none
  | Nat.succ fuel, cs =>
      match skipWs cs with
      | ']' :: rest => some rest
      | ',' :: rest =>
          match scanValue fuel (skipWs rest) with
          | none => none
          | some afterVal => scanArrayTail fuel afterVal
      | _ => none

end

/-- `json.loads(payload)` succeeds: skip leading whitespace, scan one value,
and require only whitespace to remain (`Extra data` otherwise). -/
def jsonAccepts (s : String) : Bool :=
  match scanValue (s.data.length + 1) (skipWs s.data) with
  | some rest => (skipWs rest).isEmpty
  | none => false

/-- The base64 alphabet `[A-Za-z0-9+/]`. -/
def isB64Char (c : Char) : Bool :=
  (65 ≤ c.toNat && c.toNat ≤ 90) || (97 ≤ c.toNat && c.toNat ≤ 122) ||
  isDigitChar c || c = '+' || c = '/'

/-- `validate=True`'s shape check: alphabet characters, then at most two
trailing `=` padding characters and nothing after them. -/
def b64Format : List Char → Bool
  | [] => true
  | '=' :: rest => rest = [] || rest = ['=']
  | c :: rest => if isB64Char c then b64Format rest else false

def b64Val (c : Char) : Nat :=
  if 65 ≤ c.toNat && c.toNat ≤ 90 then c.toNat - 65
  else if 97 ≤ c.toNat && c.toNat ≤ 122 then c.toNat - 71
  else if isDigitChar c then c.toNat + 4
  else if c = '+' then 62
  else 63

/-- Groups of four base64 characters to three bytes; a final group may carry
one or two `=` pads; any other length is an `Incorrect padding` error. -/
def b64DecodeChars : List Char → Option (List Nat)
  | [] => some []
  | a :: b :: '=' :: '=' :: [] => some [b64Val a * 4 + b64Val b / 16]
  | a :: b :: c :: '=' :: [] =>
      some [b64Val a * 4 + b64Val b / 16, (b64Val b % 16) * 16 + b64Val c / 4]
  | a :: b :: c :: d :: rest =>
      match b64DecodeChars rest with
      | some bytes =>
          some ((b64Val a * 4 + b64Val b / 16) ::
                ((b64Val b % 16) * 16 + b64Val c / 4) ::
                ((b64Val c % 4) * 64 + b64Val d) :: bytes)
      | none => none
  | _ => none

inductive B64Err where
  /-- `str.encode("ascii")` inside `b64decode` fails: a plain `ValueError`,
  not a `binascii.Error`, so `_build_credentials` does not catch it. -/
  | nonAscii
  /-- `binascii.Error` (non-alphabet digit or incorrect padding): caught. -/
  | invalidFormat
  deriving DecidableEq, Repr

/-- `base64.b64decode(s, validate=True)` on a `str` argument. -/
def b64decode (s : String) : Except B64Err (List Nat) :=
  if s.data.all (fun c => c.toNat < 128) = false then Except.error B64Err.nonAscii
  else if b64Format s.data = false then Except.error B64Err.invalidFormat
  else
    match b64DecodeChars s.data with
    | some bytes => Except.ok bytes
    | none => Except.error B64Err.invalidFormat

/-- Strict `bytes.decode("utf-8")`: RFC 3629 UTF-8, rejecting overlong forms,
surrogates and out-of-range sequences. -/
def isCont (b : Nat) : Bool := 0x80 ≤ b && b ≤ 0xBF

def utf8Decode : List Nat → Option (List Char)
  | [] => some []
  | b :: rest =>
      if h : b < 0x80 then
        match utf8Decode rest with
        | some cs => some (Char.ofNat b :: cs)
        | none => none
      else
        match rest with
        | b2 :: rest2 =>
            if 0xC2 ≤ b && b ≤ 0xDF && isCont b2 then
              match utf8Decode rest2 with
              | some cs => some (Char.ofNat ((b - 0xC0) * 64 + (b2 - 0x80)) :: cs)
              | none => none
            else
              match rest2 with
              | b3 :: rest3 =>
                  if 0xE0 ≤ b && b ≤ 0xEF && isCont b2 && isCont b3 &&
                     (b ≠ 0xE0 || 0xA0 ≤ b2) && (b ≠ 0xED || b2 ≤ 0x9F) then
                    match utf8Decode rest3 with
                    | some cs =>
                        some (Char.ofNat ((b - 0xE0) * 4096 + (b2 - 0x80) * 64 + (b3 - 0x80)) :: cs)
                    | none => none
                  else
                    match rest3 with
                    | b4 :: rest4 =>
                        if 0xF0 ≤ b && b ≤ 0xF4 && isCont b2 && isCont b3 && isCont b4 &&
                           (b ≠ 0xF0 || 0x90 ≤ b2) && (b ≠ 0xF4 || b2 ≤ 0x8F) then
                          match utf8Decode rest4 with
                          | some cs =>
                              some (Char.ofNat ((b - 0xF0) * 262144 + (b2 - 0x80) * 4096 +
                                (b3 - 0x80) * 64 + (b4 - 0x80)) :: cs)
                          | none => none
                        else none
                    | [] => none
              | [] => none
        | [] => none

/-! ## The GCP client (`gcp_client_impl/client.py`)

`cloud_storage_client_impl/client.py` is a line-for-line duplicate of the
same class; the embedding below covers both. -/

/-- `GCPClientConfig`, the frozen configuration dataclass (fields already
merged with their environment-variable fallbacks). -/
structure GCPClientConfig where
  bucket_name : Option String
  project_id : Option String
  credentials_path : Option String
  service_key : Option String
  deriving DecidableEq, Repr

/-- Python exceptions the client can raise. -/
inductive GCPError where
  /-- `FileNotFoundError` — the `NotFound` of the capability contract. -/
  | fileNotFound (msg : String)
  /-- `RuntimeError`, optionally chained (`raise ... from exc`). -/
  | runtimeError (msg : String) (cause : Option String)
  /-- A bare `ValueError` escaping from a library call. -/
  | valueError (msg : String)
  deriving DecidableEq, Repr

/-- `service_account.Credentials.from_service_account_info` (external
google-auth call) modelled as wrapping the JSON payload it was handed; its
own field validation is the external library's concern. -/
structure Credentials where
  info : String
  deriving DecidableEq, Repr

/-- `_build_credentials`: skip when a credentials path is configured or the
service key is falsy; otherwise try base64+UTF-8 decoding the key (falling
back to the raw key on `binascii.Error`/`UnicodeDecodeError`, but letting the
non-ASCII `ValueError` escape), then require the payload to be JSON, raising
a chained `RuntimeError` naming `GCP_SERVICE_KEY` if it is not.  The
google-auth import guard is environmental and the library is modelled as
installed. -/
def loadServiceKeyJson (payload : String) : Except GCPError (Option Credentials) :=
  if jsonAccepts payload then Except.ok (some ⟨payload⟩)
  else
    Except.error (GCPError.runtimeError
      "GCP_SERVICE_KEY must be a valid JSON string or base64-encoded JSON service account key."
      (some "json.JSONDecodeError"))

def build_credentials (cfg : GCPClientConfig) : Except GCPError (Option Credentials) :=
  if truthyStr cfg.credentials_path then Except.ok none
  else
    match cfg.service_key with
    | none => Except.ok none
    | some sk =>
        if sk = "" then Except.ok none
        else
          match b64decode sk with
          | Except.error B64Err.nonAscii =>
              Except.error (GCPError.valueError
                "string argument should contain only ASCII characters")
          | Except.error B64Err.invalidFormat => loadServiceKeyJson sk
          | Except.ok bytes =>
              match utf8Decode bytes with
              | none => loadServiceKeyJson sk
              | some chars => loadServiceKeyJson (String.mk chars)

/-- The three ways `_build_storage_client` constructs the external
`storage.Client` (modelled by which constructor ran and with what). -/
inductive StorageClient where
  | withCredentials (project : Option String) (creds : Credentials)
  | fromServiceAccountJson (path : String) (project : Option String)
  | defaultClient (project : Option String)
  deriving DecidableEq, Repr

/-- `_build_storage_client` (the google-cloud-storage import guard is
environmental and the library is modelled as installed). -/
def build_storage_client (cfg : GCPClientConfig) : Except GCPError StorageClient :=
  match build_credentials cfg with
  | Except.error e => Except.error e
  | Except.ok (some credentials) =>
      Except.ok (StorageClient.withCredentials cfg.project_id credentials)
  | Except.ok none =>
      if truthyStr cfg.credentials_path then
        Except.ok (StorageClient.fromServiceAccountJson (cfg.credentials_path.getD "")
          cfg.project_id)
      else Except.ok (StorageClient.defaultClient cfg.project_id)

/-- One `GCPCloudStorageClient` together with the server-side contents of its
configured bucket.  `serverEtag`/`serverNow` model the etag and timestamp the
external GCS service will assign to the next persisted object. -/
structure GCPClient where
  config : GCPClientConfig
  store : List (String × BlobRecord)
  serverEtag : String
  serverNow : Nat
  deriving DecidableEq, Repr

/-- `_get_bucket_name`: raise unless `bucket_name` is truthy. -/
def get_bucket_name (cfg : GCPClientConfig) : Except GCPError String :=
  if truthyStr cfg.bucket_name then Except.ok (cfg.bucket_name.getD "")
  else
    Except.error (GCPError.runtimeError
      "GCS bucket is not configured. Set `GCS_BUCKET_NAME` or pass `bucket_name` to GCPCloudStorageClient."
      none)

/-- `_get_bucket`: build (or reuse) the storage client, then resolve the
configured bucket name. -/
def get_bucket (client : GCPClient) : Except GCPError String :=
  match build_storage_client client.config with
  | Except.error e => Except.error e
  | Except.ok _ => get_bucket_name client.config

/-- `head(key=...)`: absence is a normal `None` result, not an error. -/
def head (client : GCPClient) (key : String) : Except GCPError (Option ObjectInfo) :=
  match get_bucket client with
  | Except.error e => Except.error e
  | Except.ok _bucket =>
      match dictGet client.store key with
      | none => Except.ok none
      | some b => Except.ok (some (blob_to_object_info key b))

/-- `download_bytes(key=...)`: `FileNotFoundError` when the blob is absent. -/
def download_bytes (client : GCPClient) (key : String) : Except GCPError (List Nat) :=
  match get_bucket client with
  | Except.error e => Except.error e
  | Except.ok bucketName =>
      match dictGet client.store key with
      | none =>
          Except.error (GCPError.fileNotFound
            ("Object '" ++ key ++ "' not found in bucket '" ++ bucketName ++ "'"))
      | some b => Except.ok b.data

/-- `delete(key=...)`: `FileNotFoundError` when the blob is absent. -/
def delete (client : GCPClient) (key : String) : Except GCPError GCPClient :=
  match get_bucket client with
  | Except.error e => Except.error e
  | Except.ok bucketName =>
      match dictGet client.store key with
      | none =>
          Except.error (GCPError.fileNotFound
            ("Object '" ++ key ++ "' not found in bucket '" ++ bucketName ++ "'"))
      | some _ => Except.ok { client with store := dictPop client.store key }

/-- `upload_bytes(data=..., key=..., content_type=..., metadata=...)`:
persists the object (content type and custom metadata only when truthy, as
the source guards them), reloads and returns the descriptor; the server
assigns size, etag and timestamp. -/
def upload_bytes (client : GCPClient) (data : List Nat) (key : String)
    (content_type : Option String) (metadata : Option (List (String × String))) :
    Except GCPError (ObjectInfo × GCPClient) :=
  match get_bucket client with
  | Except.error e => Except.error e
  | Except.ok _bucketName =>
      let newBlob : BlobRecord :=
        { data := data,
          size := some data.length,
          etag := some client.serverEtag,
          updated := some client.serverNow,
          content_type := if truthyStr content_type then content_type else none,
          metadata :=
            match metadata with
            | some m => if m = [] then none else some m
            | none => none }
      Except.ok (blob_to_object_info key newBlob,
        { client with store := dictSet client.store key newBlob })

/-- The local filesystem: path to readable byte content. -/
abbrev FileSystem := List (String × List Nat)

/-- `upload_file(local_path=..., key=..., content_type=...)`: read the local
bytes (any `OSError` becomes `FileNotFoundError`), then delegate to
`upload_bytes` with no metadata argument. -/
def upload_file (client : GCPClient) (fs : FileSystem) (local_path key : String)
    (content_type : Option String) : Except GCPError (ObjectInfo × GCPClient) :=
  match dictGet fs local_path with
  | none =>
      Except.error (GCPError.fileNotFound ("Cannot read local file '" ++ local_path ++ "'"))
  | some data => upload_bytes client data key content_type none

/-- `list(prefix=...)`: descriptors of all blobs whose key starts with the
prefix (the external `list_blobs` filter). -/
def listObjects (client : GCPClient) (pre : String) : Except GCPError (List ObjectInfo) :=
  match get_bucket client with
  | Except.error e => Except.error e
  | Except.ok _bucket =>
      Except.ok ((client.store.filter (fun kv => pre.isPrefixOf kv.1)).map
        (fun kv => blob_to_object_info kv.1 kv.2))

/-! ### Theorems about the GCP client. -/

theorem b64decode_ascii_not_nonAscii (s : String)
    (h : s.data.all (fun c => c.toNat < 128) = true) :
    b64decode s ≠ Except.error B64Err.nonAscii := by
  intro hcontra
  unfold b64decode at hcontra
  rw [h] at hcontra
  simp only [Bool.true_eq_false, if_false] at hcontra
  by_cases hf : b64Format s.data = false
  · rw [if_pos hf] at hcontra
    simp at hcontra
  · rw [if_neg hf] at hcontra
    cases hd : b64DecodeChars s.data <;> rw [hd] at hcontra <;> simp at hcontra

/-- Concrete configurations and clients used by the witnesses below. -/
def cfgBucket : GCPClientConfig :=
  { bucket_name := some "test-bucket", project_id := none,
    credentials_path := none, service_key := none }

def clientEmpty : GCPClient :=
  { config := cfgBucket, store := [], serverEtag := "etag-1", serverNow := 1 }

/-- C6: with the bucket configured and the storage client constructible, an
absent key makes `head` return the explicit `None` outcome without raising,
while `download_bytes` and `delete` both raise `FileNotFoundError` — absence
is the normal outcome only for `head`. -/
theorem head_absent_vs_download_delete (client : GCPClient) (k bn : String)
    (hbn : client.config.bucket_name = some bn) (hbne : bn ≠ "")
    (sc : StorageClient) (hsc : build_storage_client client.config = Except.ok sc)
    (habsent : dictGet client.store k = none) :
    head client k = Except.ok none ∧
    download_bytes client k
      = Except.error (GCPError.fileNotFound
          ("Object '" ++ k ++ "' not found in bucket '" ++ bn ++ "'")) ∧
    delete client k
      = Except.error (GCPError.fileNotFound
          ("Object '" ++ k ++ "' not found in bucket '" ++ bn ++ "'")) := by
  have hb : get_bucket client = Except.ok bn := by
    unfold get_bucket
    rw [hsc]
    unfold get_bucket_name
    rw [hbn]
    simp [truthyStr, hbne]
  refine ⟨?_, ?_, ?_⟩ <;> simp [head, download_bytes, delete, hb, habsent]

theorem head_absent_vs_download_delete_witness :
    head clientEmpty "missing.txt" = Except.ok none ∧
    download_bytes clientEmpty "missing.txt"
      = Except.error (GCPError.fileNotFound
          ("Object '" ++ "missing.txt" ++ "' not found in bucket '" ++ "test-bucket" ++ "'")) ∧
    delete clientEmpty "missing.txt"
      = Except.error (GCPError.fileNotFound
          ("Object '" ++ "missing.txt" ++ "' not found in bucket '" ++ "test-bucket" ++ "'")) := by
  exact head_absent_vs_download_delete clientEmpty "missing.txt" "test-bucket" rfl
    (by decide) (StorageClient.defaultClient none) rfl rfl

/-- C7 is falsified as stated: `key` non-emptiness is never validated.  The
descriptor-constructing operation `_blob_to_object_info` happily produces a
descriptor with the empty key (the repository's own unit tests feed it blobs
with arbitrary names), and `upload_bytes` called with the empty key returns
such a descriptor. -/
theorem objectinfo_empty_key_counterexample :
    (blob_to_object_info ""
        { data := [104, 105], size := some 2, etag := some "etag-e",
          updated := some 3, content_type := some "text/plain", metadata := none }).key
      = "" ∧
    ((upload_bytes clientEmpty [1] "" none none).toOption.map (fun r => r.1.key))
      = some "" := by
  exact ⟨rfl, rfl⟩

/-- C7 (amended): every `ObjectInfo` is an immutable value — equality is
structural, and a descriptor built from a blob is exactly the blob's fields,
fixed at construction — but the required `key` is not validated for
non-emptiness. -/
theorem objectinfo_structural_value (i j : ObjectInfo) (name : String) (b : BlobRecord) :
    (i = j ↔ (i.key = j.key ∧ i.size_bytes = j.size_bytes ∧ i.etag = j.etag ∧
      i.updated_at = j.updated_at ∧ i.content_type = j.content_type ∧
      i.metadata = j.metadata)) ∧
    blob_to_object_info name b
      = { key := name, size_bytes := b.size, etag := b.etag, updated_at := b.updated,
          content_type := b.content_type, metadata := some (b.metadata.getD []) } := by
  constructor
  · constructor
    · intro h
      subst h
      exact ⟨rfl, rfl, rfl, rfl, rfl, rfl⟩
    · rintro ⟨h1, h2, h3, h4, h5, h6⟩
      cases i
      cases j
      simp_all
  · rfl

theorem objectinfo_structural_value_witness :
    ObjectInfo.mk "k" (some 1) none none none none
      = ObjectInfo.mk "k" (some 1) none none none none ∧
    blob_to_object_info "k"
        { data := [104, 105], size := some 2, etag := some "etag-e",
          updated := some 3, content_type := some "text/plain", metadata := none }
      = ObjectInfo.mk "k" (some 2) (some "etag-e") (some 3) (some "text/plain") (some []) := by
  have h := objectinfo_structural_value (ObjectInfo.mk "k" (some 1) none none none none)
    (ObjectInfo.mk "k" (some 1) none none none none) "k"
    { data := [104, 105], size := some 2, etag := some "etag-e",
      updated := some 3, content_type := some "text/plain", metadata := none }
  exact ⟨h.1.mpr ⟨rfl, rfl, rfl, rfl, rfl, rfl⟩, h.2⟩

/-- C8: `upload_file` raises `FileNotFoundError` when the local path is
unreadable, and otherwise returns exactly `upload_bytes` applied to the bytes
read from the path, the key and the content type, with no metadata passed. -/
theorem upload_file_delegates (client : GCPClient) (fs : FileSystem)
    (p k : String) (ct : Option String) :
    (dictGet fs p = none →
      upload_file client fs p k ct
        = Except.error (GCPError.fileNotFound ("Cannot read local file '" ++ p ++ "'"))) ∧
    (∀ data, dictGet fs p = some data →
      upload_file client fs p k ct = upload_bytes client data k ct none) := by
  constructor
  · intro h
    unfold upload_file
    rw [h]
  · intro data h
    unfold upload_file
    rw [h]

theorem upload_file_delegates_witness :
    upload_file clientEmpty [("a.txt", [104, 105])] "missing.bin" "k" (some "text/plain")
      = Except.error (GCPError.fileNotFound ("Cannot read local file '" ++ "missing.bin" ++ "'")) ∧
    upload_file clientEmpty [("a.txt", [104, 105])] "a.txt" "k" (some "text/plain")
      = upload_bytes clientEmpty [104, 105] "k" (some "text/plain") none := by
  have h1 := upload_file_delegates clientEmpty [("a.txt", [104, 105])] "missing.bin" "k"
    (some "text/plain")
  have h2 := upload_file_delegates clientEmpty [("a.txt", [104, 105])] "a.txt" "k"
    (some "text/plain")
  exact ⟨h1.1 (by decide), h2.2 [104, 105] (by decide)⟩

def cfgEmptyKey : GCPClientConfig :=
  { bucket_name := some "b", project_id := none,
    credentials_path := none, service_key := some "" }

def cfgNonAsciiKey : GCPClientConfig :=
  { bucket_name := some "b", project_id := none,
    credentials_path := none, service_key := some "é" }

def cfgBadKey : GCPClientConfig :=
  { bucket_name := some "b", project_id := none,
    credentials_path := none, service_key := some "not-json!" }

/-- C9 is falsified as stated on two inputs.  The empty service key is
neither valid JSON nor the base64 encoding of a UTF-8 JSON document, yet the
client is constructed with no error at all (the falsiness guard returns
before any parsing).  A non-ASCII garbage key fails, but with the bare
`ValueError` escaping `base64.b64decode` — not the chained `RuntimeError`
identifying `GCP_SERVICE_KEY`. -/
theorem service_key_error_counterexample :
    jsonAccepts "" = false ∧
    b64decode "" = Except.ok [] ∧ utf8Decode [] = some [] ∧
    jsonAccepts (String.mk []) = false ∧
    build_storage_client cfgEmptyKey = Except.ok (StorageClient.defaultClient none) ∧
    jsonAccepts "é" = false ∧
    build_storage_client cfgNonAsciiKey
      = Except.error (GCPError.valueError
          "string argument should contain only ASCII characters") := by
  exact ⟨rfl, rfl, rfl, rfl, rfl, rfl, rfl⟩

/-- C9 (amended): for every non-empty, all-ASCII service key that is neither
valid JSON nor the base64 encoding of a UTF-8 JSON document, when no
credentials path is configured, building the credentials — and with them the
storage client — fails with the `RuntimeError` whose message names
`GCP_SERVICE_KEY`, chained from the JSON parse failure; the failure
propagates to the caller. -/
theorem service_key_invalid_json_rejected (cfg : GCPClientConfig) (sk : String)
    (hpath : truthyStr cfg.credentials_path = false)
    (hkey : cfg.service_key = some sk)
    (hne : sk ≠ "")
    (hascii : sk.data.all (fun c => c.toNat < 128) = true)
    (hjson : jsonAccepts sk = false)
    (hb64 : ∀ bytes chars, b64decode sk = Except.ok bytes → utf8Decode bytes = some chars →
        jsonAccepts (String.mk chars) = false) :
    build_credentials cfg
      = Except.error (GCPError.runtimeError
          "GCP_SERVICE_KEY must be a valid JSON string or base64-encoded JSON service account key."
          (some "json.JSONDecodeError")) ∧
    build_storage_client cfg
      = Except.error (GCPError.runtimeError
          "GCP_SERVICE_KEY must be a valid JSON string or base64-encoded JSON service account key."
          (some "json.JSONDecodeError")) := by
  have hbc : build_credentials cfg
      = Except.error (GCPError.runtimeError
          "GCP_SERVICE_KEY must be a valid JSON string or base64-encoded JSON service account key."
          (some "json.JSONDecodeError")) := by
    unfold build_credentials
    rw [hpath, hkey]
    simp only [Bool.false_eq_true, if_false, if_neg hne]
    cases hb : b64decode sk with
    | error e =>
        cases e with
        | nonAscii => exact absurd hb (b64decode_ascii_not_nonAscii sk hascii)
        | invalidFormat => simp [loadServiceKeyJson, hjson]
    | ok bytes =>
        cases hu : utf8Decode bytes with
        | none => simp [loadServiceKeyJson, hu, hjson]
        | some chars => simp [loadServiceKeyJson, hu, hb64 bytes chars hb hu]
  refine ⟨hbc, ?_⟩
  unfold build_storage_client
  rw [hbc]

theorem service_key_invalid_json_rejected_witness :
    build_storage_client cfgBadKey
      = Except.error (GCPError.runtimeError
          "GCP_SERVICE_KEY must be a valid JSON string or base64-encoded JSON service account key."
          (some "json.JSONDecodeError")) := by
  have h := service_key_invalid_json_rejected cfgBadKey "not-json!" rfl rfl
    (by decide) (by decide) (by decide)
    (by
      intro bytes chars hb hu
      rw [show b64decode "not-json!" = Except.error B64Err.invalidFormat from rfl] at hb
      simp at hb)
  exact h.2

end CloudStorage
